import Mathlib

/-!
Shallow embedding of the zerodrop-rs library (src/zd.rs, src/zdd.rs,
src/cow.rs, src/lib.rs).

Heap allocations are modelled as an association list from allocation ids
to byte contents (`Mem`).  A value of a `Copy` type `T` is its byte image,
a `List Nat`.  Every library operation is a function from `Mem` to a
result, a new `Mem` and a trace of `Event`s; the trace records each store
together with whether the source performed it through the volatile
intrinsic `volatile_set_memory` (volatile) or through an ordinary
assignment / `ptr::write` / `copy_nonoverlapping` (non-volatile), each
invocation of a wrapped value's own teardown (`drop_in_place` or the
`Box` destructor running `<T as Drop>::drop`), each heap allocation and
deallocation, and each point where the source passes the secret by value
so that a stack copy is materialized.

Deallocation (`Event.free`) does not clear the store: the model keeps the
bytes that physically remain in freed memory, which is exactly what the
library's doctests read back through a raw pointer captured before the
drop.
-/

set_option maxHeartbeats 1000000

namespace Zerodrop

/-- A heap allocation identifier (the address of a `Box` allocation). -/
abbrev AllocId := Nat

/-- The byte image of a value of a `Copy` type `T`. -/
abbrev Bytes := List Nat

/-- Overwriting every byte of a value with zero, as
`volatile_set_memory::<T>(s, 0, 1)` does: same width, all bytes zero. -/
def zeroBytes (bs : Bytes) : Bytes := bs.map (fun _ => 0)

/-- Events recorded by the model of the library's operations. -/
inductive Event where
  /-- A fresh heap allocation with id `a`. -/
  | alloc (a : AllocId)
  /-- A store of the bytes `bs` to allocation `a`; `vol` is true exactly
  when the source uses `volatile_set_memory`. -/
  | write (vol : Bool) (a : AllocId) (bs : Bytes)
  /-- A zero fill of the whole allocation `a`; `vol` is true exactly when
  the source uses `volatile_set_memory`. -/
  | zfill (vol : Bool) (a : AllocId)
  /-- The wrapped type's own teardown (`<T as Drop>::drop`) running on the
  value whose byte image is `bs`. -/
  | teardown (bs : Bytes)
  /-- The secret with byte image `bs` is passed by value, materializing a
  copy on the call stack. -/
  | stackCopy (bs : Bytes)
  /-- Deallocation of allocation `a` (the `Box` destructor). -/
  | free (a : AllocId)
deriving DecidableEq, Repr

/-- Whether an event is a store into the heap. -/
def Event.isStore : Event → Bool
  | .write _ _ _ => true
  | .zfill _ _ => true
  | _ => false

/-- Whether an event is a store performed through the volatile intrinsic. -/
def Event.isVolatileStore : Event → Bool
  | .write vol _ _ => vol
  | .zfill vol _ => vol
  | _ => false

/-- Whether an event is a teardown of the wrapped value. -/
def Event.isTeardown : Event → Bool
  | .teardown _ => true
  | _ => false

/-- Whether an event is a fresh heap allocation. -/
def Event.isAlloc : Event → Bool
  | .alloc _ => true
  | _ => false

/-- Whether an event materializes a stack copy of the secret. -/
def Event.isStackCopy : Event → Bool
  | .stackCopy _ => true
  | _ => false

/-- Every store in the trace is volatile (non-elidable). -/
def storesAllVolatile (tr : List Event) : Bool :=
  tr.all (fun e => !e.isStore || e.isVolatileStore)

/-- Lookup of an allocation's contents in an association list store. -/
def lookupA : List (AllocId × Bytes) → AllocId → Option Bytes
  | [], _ => none
  | (k, v) :: rest, a => if k = a then some v else lookupA rest a

/-- The heap: a fresh-id counter and the contents of each allocation. -/
structure Mem where
  next : AllocId
  store : List (AllocId × Bytes)
deriving DecidableEq, Repr

/-- Read the contents of allocation `a`. -/
def Mem.read (m : Mem) (a : AllocId) : Option Bytes := lookupA m.store a

/-- Update of one association-list entry: apply `f` at key `a`. -/
def updateEntry (a : AllocId) (f : Bytes → Bytes) :
    AllocId × Bytes → AllocId × Bytes
  | (k, v) => if k = a then (a, f v) else (k, v)

/-- Apply `f` to the contents of allocation `a`, leaving others alone. -/
def Mem.update (m : Mem) (a : AllocId) (f : Bytes → Bytes) : Mem :=
  ⟨m.next, m.store.map (updateEntry a f)⟩

/-- Store the bytes `bs` into allocation `a`. -/
def Mem.write (m : Mem) (a : AllocId) (bs : Bytes) : Mem :=
  m.update a (fun _ => bs)

/-- Zero every byte of allocation `a`, as `volatile_set_memory` does. -/
def Mem.zset (m : Mem) (a : AllocId) : Mem :=
  m.update a zeroBytes

/-- Allocate a fresh block holding `bs`; returns its id and the new heap. -/
def Mem.alloc (m : Mem) (bs : Bytes) : AllocId × Mem :=
  (m.next, ⟨m.next + 1, (m.next, bs) :: m.store⟩)

/-- Well-formedness: every allocation id in the store is below `next`. -/
def Mem.wfb (m : Mem) : Bool :=
  m.store.all (fun p => decide (p.1 < m.next))


/-- `ZeroDrop<T>` from src/zd.rs: a wrapper around one `Box<T>`, modelled
by the id of that heap allocation. -/
structure ZeroDrop where
  alloc : AllocId
deriving DecidableEq, Repr

namespace ZeroDrop

/-- `ZeroDrop::new_insecure(t: T)` (zd.rs:53): boxes `t`, which was passed
by value and so, as the source doc warns, likely sits on the stack. -/
def new_insecure (t : Bytes) (m : Mem) : ZeroDrop × Mem × List Event :=
  let (a, m1) := m.alloc t
  (⟨a⟩, m1, [Event.stackCopy t, Event.alloc a, Event.write false a t])

/-- `ZeroDrop::new_box(b: Box<T>)` (zd.rs:58): wraps an existing box. -/
def new_box (a : AllocId) : ZeroDrop := ⟨a⟩

/-- `ZeroDrop::new_uninitialized()` (zd.rs:63): boxes
`mem::uninitialized::<T>()`; the unspecified contents are the `junk`
parameter. -/
def new_uninitialized (junk : Bytes) (m : Mem) : ZeroDrop × Mem × List Event :=
  let (a, m1) := m.alloc junk
  (⟨a⟩, m1, [Event.alloc a, Event.write false a junk])

/-- `ZeroDrop::new_copy(t: &T)` (zd.rs:68): allocates an uninitialized box
(contents `junk`) and `copy_nonoverlapping`s the referent of `t` into it,
never passing the secret by value.  `none` only if the reference `src` is
dangling, which the Rust type system excludes. -/
def new_copy (junk : Bytes) (src : AllocId) (m : Mem) :
    Option (ZeroDrop × Mem × List Event) :=
  match m.read src with
  | none => none
  | some v =>
    let (a, m1) := m.alloc junk
    some (⟨a⟩, m1.write a v, [Event.alloc a, Event.write false a v])

/-- `ZeroDrop::zero_out(&mut self)` (zd.rs:74):
`volatile_set_memory::<T>(s, 0, 1)` on the live contents. -/
def zero_out (zd : ZeroDrop) (m : Mem) : Mem × List Event :=
  (m.zset zd.alloc, [Event.zfill true zd.alloc])

/-- `ZeroDrop::new_zeroed()` (zd.rs:79): allocates an uninitialized box and
volatile-zero-fills it. -/
def new_zeroed (junk : Bytes) (m : Mem) : ZeroDrop × Mem × List Event :=
  let (a, m1) := m.alloc junk
  (⟨a⟩, m1.zset a, [Event.alloc a, Event.zfill true a])

/-- `<ZeroDrop<T> as Default>::default()` (zd.rs:88): boxes
`T::default()`, whose byte image is the `dflt` parameter. -/
def default (dflt : Bytes) (m : Mem) : ZeroDrop × Mem × List Event :=
  let (a, m1) := m.alloc dflt
  (⟨a⟩, m1, [Event.alloc a, Event.write false a dflt])

/-- `<ZeroDrop<T> as Clone>::clone` (zd.rs:95): clones the underlying
`Box`, i.e. allocates a new box holding a copy of the contents. -/
def clone (zd : ZeroDrop) (m : Mem) : Option (ZeroDrop × Mem × List Event) :=
  match m.read zd.alloc with
  | none => none
  | some v =>
    let (a, m1) := m.alloc v
    some (⟨a⟩, m1, [Event.alloc a, Event.write false a v])

/-- `<ZeroDrop<T> as Drop>::drop` (zd.rs:39):
`volatile_set_memory::<T>(s, 0, 1)` over the whole allocation. -/
def drop (zd : ZeroDrop) (m : Mem) : Mem × List Event :=
  (m.zset zd.alloc, [Event.zfill true zd.alloc])

/-- Full end of life of a `ZeroDrop`: the `Drop` impl runs, then the inner
`Box` is deallocated (`T: Copy` has no destructor of its own).  The freed
bytes stay in the model store, as they stay in physical memory. -/
def endOfLife (zd : ZeroDrop) (m : Mem) : Mem × List Event :=
  let (m1, tr) := drop zd m
  (m1, tr ++ [Event.free zd.alloc])

/-- `<ZeroDrop<T> as Deref>::deref` (zd.rs:105): delegates to the box. -/
def deref (zd : ZeroDrop) (m : Mem) : Option Bytes × Mem × List Event :=
  (m.read zd.alloc, m, [])

/-- `<ZeroDrop<T> as AsRef<U>>::as_ref` (zd.rs:121): delegates to the box
and then to the value; modelled at `U = T`, the byte image itself. -/
def as_ref (zd : ZeroDrop) (m : Mem) : Option Bytes × Mem × List Event :=
  (m.read zd.alloc, m, [])

/-- `<ZeroDrop<T> as Borrow<T>>::borrow` (zd.rs:135): delegates to the
box. -/
def borrow (zd : ZeroDrop) (m : Mem) : Option Bytes × Mem × List Event :=
  (m.read zd.alloc, m, [])

end ZeroDrop

/-- `ZeroDropDrop<T>` from src/zdd.rs: a wrapper around one `Box<T>` for a
`T: Drop+Default`, modelled by the id of that heap allocation. -/
structure ZeroDropDrop where
  alloc : AllocId
deriving DecidableEq, Repr

namespace ZeroDropDrop

/-- `ZeroDropDrop::new_default()` (zdd.rs:43): boxes `T::default()`. -/
def new_default (dflt : Bytes) (m : Mem) : ZeroDropDrop × Mem × List Event :=
  let (a, m1) := m.alloc dflt
  (⟨a⟩, m1, [Event.alloc a, Event.write false a dflt])

/-- `ZeroDropDrop::zero_out(&mut self)` (zdd.rs:51):
`volatile_set_memory::<T>(s, 0, 1)` on the live contents. -/
def zero_out (z : ZeroDropDrop) (m : Mem) : Mem × List Event :=
  (m.zset z.alloc, [Event.zfill true z.alloc])

/-- `<ZeroDropDrop<T> as Drop>::drop` (zdd.rs:24): `drop_in_place` on the
contents (the value's own teardown), then a non-volatile `ptr::write` of
`T::default()` over the location. -/
def drop (z : ZeroDropDrop) (dflt : Bytes) (m : Mem) : Mem × List Event :=
  match m.read z.alloc with
  | none => (m, [])
  | some v =>
    (m.write z.alloc dflt,
      [Event.teardown v, Event.write false z.alloc dflt])

/-- Full end of life of a `ZeroDropDrop`: the `Drop` impl runs, then the
inner `Box<T>` is destroyed, which runs `<T as Drop>::drop` on the default
value now stored there and deallocates. -/
def endOfLife (z : ZeroDropDrop) (dflt : Bytes) (m : Mem) :
    Mem × List Event :=
  let (m1, tr) := drop z dflt m
  (m1, tr ++ [Event.teardown dflt, Event.free z.alloc])

end ZeroDropDrop

/-- `ZeroDropCow<'a, T>` from src/cow.rs: either a borrow of caller memory
or an owned boxed allocation. -/
inductive ZeroDropCow where
  /-- `ZeroDropCow::Borrowed(&'a T)`: the id of the caller's memory. -/
  | Borrowed (r : AllocId)
  /-- `ZeroDropCow::Boxed(Box<T>)`: the id of the owned allocation. -/
  | Boxed (b : AllocId)
deriving DecidableEq, Repr

namespace ZeroDropCow

/-- `ZeroDropCow::new(t: &'a T)` (cow.rs:51): enters the `Borrowed`
state. -/
def new (r : AllocId) : ZeroDropCow := .Borrowed r

/-- `ZeroDropCow::new_insecure(t: T)` (cow.rs:41): boxes `t`, passed by
value, so a stack copy is materialized. -/
def new_insecure (t : Bytes) (m : Mem) : ZeroDropCow × Mem × List Event :=
  let (a, m1) := m.alloc t
  (.Boxed a, m1, [Event.stackCopy t, Event.alloc a, Event.write false a t])

/-- `ZeroDropCow::new_copy(t: &T)` (cow.rs:57): allocates an uninitialized
box (contents `junk`) and `copy_nonoverlapping`s the referent in. -/
def new_copy (junk : Bytes) (src : AllocId) (m : Mem) :
    Option (ZeroDropCow × Mem × List Event) :=
  match m.read src with
  | none => none
  | some v =>
    let (a, m1) := m.alloc junk
    some (.Boxed a, m1.write a v, [Event.alloc a, Event.write false a v])

/-- `<ZeroDropCow<'a, T> as Drop>::drop` (cow.rs:26): nothing in the
`Borrowed` state, `volatile_set_memory(s, 0, 1)` in the `Boxed` state. -/
def drop (c : ZeroDropCow) (m : Mem) : Mem × List Event :=
  match c with
  | .Borrowed _ => (m, [])
  | .Boxed b => (m.zset b, [Event.zfill true b])

/-- Full end of life of a `ZeroDropCow`: the `Drop` impl runs and then, in
the `Boxed` state only, the inner box is deallocated. -/
def endOfLife (c : ZeroDropCow) (m : Mem) : Mem × List Event :=
  match c with
  | .Borrowed _ => (m, [])
  | .Boxed b =>
    let (m1, tr) := drop (.Boxed b) m
    (m1, tr ++ [Event.free b])

/-- `ZeroDropCow::into_boxed(mut self)` (cow.rs:64).  `Borrowed`:
`ZeroDrop::new_copy` of the borrowed referent.  `Boxed`: allocates a fresh
uninitialized box (contents `junk`), `mem::swap`s the values, wraps the
fresh box with `ZeroDrop::new_box`; `self`, still holding the old
allocation, is then dropped at the end of scope, which volatile-zeroes and
frees the old allocation. -/
def into_boxed (junk : Bytes) (c : ZeroDropCow) (m : Mem) :
    Option (ZeroDrop × Mem × List Event) :=
  match c with
  | .Borrowed r => ZeroDrop.new_copy junk r m
  | .Boxed o =>
    match m.read o with
    | none => none
    | some v =>
      let (b, m1) := m.alloc junk
      let m2 := (m1.write o junk).write b v
      let m3 := m2.zset o
      some (ZeroDrop.new_box b, m3,
        [Event.alloc b, Event.write false b v, Event.write false o junk,
         Event.zfill true o, Event.free o])

/-- `<ZeroDropCow<'a, T> as Clone>::clone` (cow.rs:85): reborrows a
`Borrowed`, `new_copy`s the contents of a `Boxed`. -/
def clone (junk : Bytes) (c : ZeroDropCow) (m : Mem) :
    Option (ZeroDropCow × Mem × List Event) :=
  match c with
  | .Borrowed r => some (.Borrowed r, m, [])
  | .Boxed o => new_copy junk o m

/-- `<ZeroDropCow<'a, T> as Deref>::deref` (cow.rs:97): the borrowed
reference or the box contents. -/
def deref (c : ZeroDropCow) (m : Mem) : Option Bytes × Mem × List Event :=
  match c with
  | .Borrowed r => (m.read r, m, [])
  | .Boxed o => (m.read o, m, [])

/-- `<ZeroDropCow<'a, T> as AsRef<U>>::as_ref` (cow.rs:112): delegates to
the borrowed reference or the box contents; modelled at `U = T`. -/
def as_ref (c : ZeroDropCow) (m : Mem) : Option Bytes × Mem × List Event :=
  match c with
  | .Borrowed r => (m.read r, m, [])
  | .Boxed o => (m.read o, m, [])

/-- `<ZeroDropCow<'a, T> as Borrow<T>>::borrow` (cow.rs:123): the borrowed
reference or the box contents. -/
def borrow (c : ZeroDropCow) (m : Mem) : Option Bytes × Mem × List Event :=
  match c with
  | .Borrowed r => (m.read r, m, [])
  | .Boxed o => (m.read o, m, [])

end ZeroDropCow

namespace Lib

/-- The older `ZeroDrop<T>` defined directly in src/lib.rs (for
`T: Copy+Default`), also a wrapper around one `Box<T>`. -/
structure ZeroDrop where
  alloc : AllocId
deriving DecidableEq, Repr

/-- `<ZeroDrop<T> as Drop>::drop` in src/lib.rs:40: the ordinary,
non-volatile assignment `*self.0 = Default::default()`. -/
def ZeroDrop.drop (z : Lib.ZeroDrop) (dflt : Bytes) (m : Mem) :
    Mem × List Event :=
  (m.write z.alloc dflt, [Event.write false z.alloc dflt])

end Lib

/-- Access modes a delegation trait impl provides. -/
inductive Access where
  | read
  | write
deriving DecidableEq, Repr

/-- One delegation trait impl present in a source file: the trait's name
and whether it hands out shared (read) or mutable (write) access to the
contained value. -/
structure TraitImpl where
  traitName : String
  access : Access
deriving DecidableEq, Repr

/-- The delegation trait impls on `ZeroDropCow` in src/cow.rs: `Deref`
(cow.rs:97), `AsRef` (cow.rs:112) and `Borrow` (cow.rs:123).  cow.rs
contains no `DerefMut`, `AsMut` or `BorrowMut` impl and no panicking
write path. -/
def cowAccessImpls : List TraitImpl :=
  [⟨"Deref", .read⟩, ⟨"AsRef", .read⟩, ⟨"Borrow", .read⟩]

/-- The delegation trait impls on `ZeroDrop` in src/zd.rs: `Deref`
(zd.rs:105), `DerefMut` (zd.rs:114), `AsRef` (zd.rs:121), `AsMut`
(zd.rs:128), `Borrow` (zd.rs:135) and `BorrowMut` (zd.rs:143). -/
def zeroDropAccessImpls : List TraitImpl :=
  [⟨"Deref", .read⟩, ⟨"DerefMut", .write⟩, ⟨"AsRef", .read⟩,
   ⟨"AsMut", .write⟩, ⟨"Borrow", .read⟩, ⟨"BorrowMut", .write⟩]

/-- The read accesses a `ZeroDrop` delegates (zd.rs:105, 121, 135). -/
inductive ReadOp where
  | derefOp
  | asRefOp
  | borrowOp
deriving DecidableEq, Repr

/-- Run one read access on a `ZeroDrop`. -/
def ZeroDrop.runRead (op : ReadOp) (zd : ZeroDrop) (m : Mem) :
    Option Bytes × Mem × List Event :=
  match op with
  | .derefOp => ZeroDrop.deref zd m
  | .asRefOp => ZeroDrop.as_ref zd m
  | .borrowOp => ZeroDrop.borrow zd m

/-- Run a sequence of read accesses, threading the heap through. -/
def ZeroDrop.runReads (ops : List ReadOp) (zd : ZeroDrop) (m : Mem) : Mem :=
  ops.foldl (fun mm op => (ZeroDrop.runRead op zd mm).2.1) m

theorem updateEntry_pair (a : AllocId) (f : Bytes → Bytes) (k : AllocId)
    (v : Bytes) :
    updateEntry a f (k, v) = if k = a then (a, f v) else (k, v) := rfl

theorem lookupA_map_update (l : List (AllocId × Bytes)) (f : Bytes → Bytes)
    (a b : AllocId) :
    lookupA (l.map (updateEntry a f)) b =
      if a = b then (lookupA l b).map f else lookupA l b := by
  induction l with
  | nil => simp [lookupA]
  | cons p rest ih =>
    obtain ⟨k, v⟩ := p
    rw [List.map_cons, updateEntry_pair]
    by_cases hk : k = a
    · rw [if_pos hk]
      subst hk
      by_cases hb : k = b
      · subst hb
        simp [lookupA]
      · simp [lookupA, hb, ih]
    · rw [if_neg hk]
      by_cases hb : k = b
      · subst hb
        have hab : ¬ a = k := fun h => hk h.symm
        simp [lookupA, hab]
      · simp [lookupA, hk, hb, ih]

theorem Mem.read_update (m : Mem) (a b : AllocId) (f : Bytes → Bytes) :
    (m.update a f).read b = if a = b then (m.read b).map f else m.read b :=
  lookupA_map_update m.store f a b

theorem Mem.read_update_self (m : Mem) (a : AllocId) (f : Bytes → Bytes) :
    (m.update a f).read a = (m.read a).map f := by
  simp [Mem.read_update]

theorem Mem.read_update_ne (m : Mem) (a b : AllocId) (f : Bytes → Bytes)
    (h : a ≠ b) : (m.update a f).read b = m.read b := by
  simp [Mem.read_update, h]

theorem Mem.read_write_self (m : Mem) (a : AllocId) (bs : Bytes) (v : Bytes)
    (h : m.read a = some v) : (m.write a bs).read a = some bs := by
  simp [Mem.write, Mem.read_update_self, h]

theorem Mem.read_write_ne (m : Mem) (a b : AllocId) (bs : Bytes)
    (h : a ≠ b) : (m.write a bs).read b = m.read b := by
  simp [Mem.write, Mem.read_update_ne, h]

theorem Mem.read_zset_self (m : Mem) (a : AllocId) (v : Bytes)
    (h : m.read a = some v) : (m.zset a).read a = some (zeroBytes v) := by
  simp [Mem.zset, Mem.read_update_self, h]

theorem Mem.read_zset_ne (m : Mem) (a b : AllocId)
    (h : a ≠ b) : (m.zset a).read b = m.read b := by
  simp [Mem.zset, Mem.read_update_ne, h]

theorem Mem.read_alloc_self (m : Mem) (bs : Bytes) :
    ((m.alloc bs).2).read (m.alloc bs).1 = some bs := by
  simp [Mem.alloc, Mem.read, lookupA]

theorem Mem.read_alloc_ne (m : Mem) (b : AllocId) (bs : Bytes)
    (h : b ≠ m.next) : ((m.alloc bs).2).read b = m.read b := by
  have h2 : ¬ m.next = b := fun hh => h hh.symm
  simp [Mem.alloc, Mem.read, lookupA, h2]

theorem lookupA_some_key_mem (l : List (AllocId × Bytes)) (a : AllocId)
    (v : Bytes) (h : lookupA l a = some v) : ∃ p ∈ l, p.1 = a := by
  induction l with
  | nil => simp [lookupA] at h
  | cons q rest ih =>
    obtain ⟨k, w⟩ := q
    by_cases hk : k = a
    · exact ⟨(k, w), by simp, hk⟩
    · simp [lookupA, hk] at h
      obtain ⟨p, hp, hpa⟩ := ih h
      exact ⟨p, by simp [hp], hpa⟩

theorem Mem.read_some_lt_next (m : Mem) (a : AllocId) (v : Bytes)
    (hm : m.wfb = true) (h : m.read a = some v) : a < m.next := by
  obtain ⟨p, hp, hpa⟩ := lookupA_some_key_mem m.store a v h
  have := (List.all_eq_true.mp hm) p hp
  simpa [hpa] using of_decide_eq_true this

theorem Mem.alloc_fresh_ne (m : Mem) (a : AllocId) (v bs : Bytes)
    (hm : m.wfb = true) (h : m.read a = some v) : (m.alloc bs).1 ≠ a := by
  have hlt := Mem.read_some_lt_next m a v hm h
  simpa [Mem.alloc] using Nat.ne_of_gt hlt

theorem Mem.wfb_update (m : Mem) (a : AllocId) (f : Bytes → Bytes)
    (hm : m.wfb = true) : (m.update a f).wfb = true := by
  simp only [Mem.wfb, Mem.update, List.all_eq_true] at hm ⊢
  intro p hp
  rw [List.mem_map] at hp
  obtain ⟨q, hq, hqp⟩ := hp
  obtain ⟨k, v⟩ := q
  have := hm (k, v) hq
  by_cases hk : k = a
  · simp [updateEntry, hk] at hqp
    subst hqp
    simpa [← hk] using this
  · simp [updateEntry, hk] at hqp
    subst hqp
    simpa using this

theorem Mem.wfb_write (m : Mem) (a : AllocId) (bs : Bytes)
    (hm : m.wfb = true) : (m.write a bs).wfb = true :=
  Mem.wfb_update m a _ hm

theorem Mem.wfb_zset (m : Mem) (a : AllocId)
    (hm : m.wfb = true) : (m.zset a).wfb = true :=
  Mem.wfb_update m a _ hm

theorem Mem.wfb_alloc (m : Mem) (bs : Bytes)
    (hm : m.wfb = true) : ((m.alloc bs).2).wfb = true := by
  have hm2 : m.store.all (fun p => decide (p.1 < m.next)) = true := hm
  show ((m.next, bs) :: m.store).all (fun p => decide (p.1 < m.next + 1)) = true
  rw [List.all_eq_true]
  intro p hp
  rcases List.mem_cons.mp hp with hp | hp
  · subst hp
    rw [decide_eq_true_eq]
    exact Nat.lt_succ_self m.next
  · have h2 := of_decide_eq_true ((List.all_eq_true.mp hm2) p hp)
    rw [decide_eq_true_eq]
    exact Nat.lt_succ_of_lt h2

theorem zeroBytes_all_zero (bs : Bytes) : ∀ x ∈ zeroBytes bs, x = 0 := by
  intro x hx
  simp [zeroBytes] at hx
  exact hx.2

theorem zeroBytes_length (bs : Bytes) : (zeroBytes bs).length = bs.length := by
  simp [zeroBytes]

/-- Claim C1: dropping an owning wrapper — a zd.rs `ZeroDrop` over a value
`v`, or a `ZeroDropCow` in the `Boxed` state holding `w` — overwrites
every byte of the wrapped allocation with zero, so the memory previously
backing the wrapper reads back all-zero after end of life. -/
theorem zeroDrop_endOfLife_zeroes (m : Mem) (a b : AllocId) (v w : Bytes)
    (hv : m.read a = some v) (hw : m.read b = some w) :
    (((ZeroDrop.endOfLife ⟨a⟩ m).1).read a = some (zeroBytes v)
      ∧ (zeroBytes v).length = v.length
      ∧ ∀ x ∈ zeroBytes v, x = 0)
    ∧ (((ZeroDropCow.endOfLife (.Boxed b) m).1).read b = some (zeroBytes w)
      ∧ (zeroBytes w).length = w.length
      ∧ ∀ x ∈ zeroBytes w, x = 0) := by
  refine ⟨⟨?_, zeroBytes_length v, zeroBytes_all_zero v⟩,
    ⟨?_, zeroBytes_length w, zeroBytes_all_zero w⟩⟩
  · simpa [ZeroDrop.endOfLife, ZeroDrop.drop] using Mem.read_zset_self m a v hv
  · simpa [ZeroDropCow.endOfLife, ZeroDropCow.drop] using
      Mem.read_zset_self m b w hw

/-- Witness for C1 at a two-allocation heap holding `[3, 3]` and
`[4, 4]`. -/
theorem zeroDrop_endOfLife_zeroes_witness :
    (Mem.read ⟨2, [(0, [3, 3]), (1, [4, 4])]⟩ 0 = some [3, 3])
    ∧ (Mem.read ⟨2, [(0, [3, 3]), (1, [4, 4])]⟩ 1 = some [4, 4])
    ∧ ((((ZeroDrop.endOfLife ⟨0⟩ ⟨2, [(0, [3, 3]), (1, [4, 4])]⟩).1).read 0
          = some (zeroBytes [3, 3])
        ∧ (zeroBytes [3, 3]).length = [3, 3].length
        ∧ ∀ x ∈ zeroBytes [3, 3], x = 0)
      ∧ (((ZeroDropCow.endOfLife (.Boxed 1)
            ⟨2, [(0, [3, 3]), (1, [4, 4])]⟩).1).read 1
          = some (zeroBytes [4, 4])
        ∧ (zeroBytes [4, 4]).length = [4, 4].length
        ∧ ∀ x ∈ zeroBytes [4, 4], x = 0)) :=
  ⟨by decide, by decide,
    zeroDrop_endOfLife_zeroes ⟨2, [(0, [3, 3]), (1, [4, 4])]⟩ 0 1 [3, 3]
      [4, 4] (by decide) (by decide)⟩

/-- Claim C2 is a code bug: the spec requires every erasing drop to use a
volatile, non-elidable store, and the zd.rs `ZeroDrop` and the `Boxed`
`ZeroDropCow` drops do, but the drop of the `ZeroDrop` defined in
src/lib.rs performs its overwrite with the ordinary assignment
`*self.0 = Default::default()`, and the `ZeroDropDrop` drop uses plain
`ptr::write`, both of which an optimizer may elide. -/
theorem lib_zeroDrop_drop_erasure_not_volatile :
    storesAllVolatile
        (Lib.ZeroDrop.drop ⟨0⟩ [0, 0] ⟨1, [(0, [3, 3])]⟩).2 = false
    ∧ storesAllVolatile
        (ZeroDropDrop.drop ⟨0⟩ [0, 0] ⟨1, [(0, [3, 3])]⟩).2 = false
    ∧ storesAllVolatile (ZeroDrop.drop ⟨0⟩ ⟨1, [(0, [3, 3])]⟩).2 = true
    ∧ storesAllVolatile
        (ZeroDropCow.drop (.Boxed 0) ⟨1, [(0, [3, 3])]⟩).2 = true := by
  decide

/-- Claim C3: the end of life of a `ZeroDropDrop` holding `v` runs, in
strict order, the teardown of `v` (`drop_in_place`), then the overwrite of
the location with `T::default()`, then the teardown of that default value
(when the inner `Box<T>` is destroyed) — so the wrapped type's teardown
runs exactly twice. -/
theorem zeroDropDrop_endOfLife_teardown_twice (m : Mem) (a : AllocId)
    (dflt v : Bytes) (h : m.read a = some v) :
    (ZeroDropDrop.endOfLife ⟨a⟩ dflt m).2 =
      [Event.teardown v, Event.write false a dflt,
       Event.teardown dflt, Event.free a]
    ∧ ((ZeroDropDrop.endOfLife ⟨a⟩ dflt m).2).countP
        (fun e => Event.isTeardown e) = 2
    ∧ ((ZeroDropDrop.endOfLife ⟨a⟩ dflt m).1).read a = some dflt := by
  refine ⟨?_, ?_, ?_⟩
  · simp [ZeroDropDrop.endOfLife, ZeroDropDrop.drop, h]
  · simp [ZeroDropDrop.endOfLife, ZeroDropDrop.drop, h, List.countP_cons,
      Event.isTeardown]
  · simpa [ZeroDropDrop.endOfLife, ZeroDropDrop.drop, h] using
      Mem.read_write_self m a dflt v h

/-- Witness for C3 with value `[7]` and default `[1]`. -/
theorem zeroDropDrop_endOfLife_teardown_twice_witness :
    (Mem.read ⟨1, [(0, [7])]⟩ 0 = some [7])
    ∧ ((ZeroDropDrop.endOfLife ⟨0⟩ [1] ⟨1, [(0, [7])]⟩).2 =
        [Event.teardown [7], Event.write false 0 [1],
         Event.teardown [1], Event.free 0]
      ∧ ((ZeroDropDrop.endOfLife ⟨0⟩ [1] ⟨1, [(0, [7])]⟩).2).countP
          (fun e => Event.isTeardown e) = 2
      ∧ ((ZeroDropDrop.endOfLife ⟨0⟩ [1] ⟨1, [(0, [7])]⟩).1).read 0
          = some [1]) :=
  ⟨by decide,
    zeroDropDrop_endOfLife_teardown_twice ⟨1, [(0, [7])]⟩ 0 [1] [7]
      (by decide)⟩

/-- Claim C6: a `ZeroDropCow` constructed from a reference via `new` is in
the `Borrowed` state, and its entire end of life changes nothing: the heap
is returned unchanged and no event — no store, no free — occurs. -/
theorem cow_borrowed_endOfLife_noop (m : Mem) (r : AllocId) :
    ZeroDropCow.new r = ZeroDropCow.Borrowed r
    ∧ ZeroDropCow.endOfLife (ZeroDropCow.new r) m = (m, [])
    ∧ ZeroDropCow.drop (ZeroDropCow.new r) m = (m, []) :=
  ⟨rfl, rfl, rfl⟩

/-- Claim C4 is refuted on its `Boxed` arm at a concrete input: promoting
a `Boxed` `ZeroDropCow` over allocation 0 with `into_boxed` yields a
`ZeroDrop` over the fresh allocation 1, with one fresh-allocation event in
the trace (the secret is copied into the new box by the swap); the
existing allocation is not transferred — it is zeroed and freed. -/
theorem into_boxed_boxed_fresh_allocation :
    (ZeroDropCow.into_boxed [9, 9] (.Boxed 0) ⟨1, [(0, [7, 7])]⟩).map
        (fun p => (p.1.alloc, (p.2.2).countP (fun e => Event.isAlloc e)))
      = some (1, 1)
    ∧ (ZeroDropCow.into_boxed [9, 9] (.Boxed 0) ⟨1, [(0, [7, 7])]⟩).map
        (fun p => (p.1.alloc, (p.2.2).countP (fun e => Event.isAlloc e)))
      ≠ some (0, 0) := by
  decide

/-- Claim C4 as amended: `into_boxed` of a `Borrowed` cow allocates a
fresh box and copies the bytes, leaving the borrowed original untouched;
`into_boxed` of a `Boxed` cow also allocates a fresh box, moves the secret
into it by swapping with uninitialized contents (a byte copy into the new
allocation, not a transfer of the old one), and the old allocation is then
volatile-zeroed and freed by the cow's own drop.  In both cases the
resulting `ZeroDrop` holds the original value. -/
theorem into_boxed_amended (m : Mem) (junk : Bytes) (r o : AllocId)
    (v w : Bytes) (hm : m.wfb = true) (hr : m.read r = some v)
    (ho : m.read o = some w) :
    (∃ zd m2 tr,
      ZeroDropCow.into_boxed junk (.Borrowed r) m = some (zd, m2, tr)
      ∧ zd.alloc ≠ r
      ∧ m2.read zd.alloc = some v
      ∧ m2.read r = some v)
    ∧ (∃ zd m3 tr,
      ZeroDropCow.into_boxed junk (.Boxed o) m = some (zd, m3, tr)
      ∧ zd.alloc ≠ o
      ∧ tr.countP (fun e => Event.isAlloc e) = 1
      ∧ m3.read zd.alloc = some w
      ∧ m3.read o = some (zeroBytes junk)
      ∧ (∀ x ∈ zeroBytes junk, x = 0)
      ∧ Event.free o ∈ tr) := by
  have hfr : m.next ≠ r := Mem.alloc_fresh_ne m r v junk hm hr
  have hfo : m.next ≠ o := Mem.alloc_fresh_ne m o w junk hm ho
  constructor
  · refine ⟨⟨m.next⟩, ((m.alloc junk).2).write m.next v,
      [Event.alloc m.next, Event.write false m.next v], ?_, hfr, ?_, ?_⟩
    · simp [ZeroDropCow.into_boxed, ZeroDrop.new_copy, hr, Mem.alloc]
    · exact Mem.read_write_self _ m.next v junk (Mem.read_alloc_self m junk)
    · rw [Mem.read_write_ne _ m.next r v hfr,
        Mem.read_alloc_ne m r junk (fun hh => hfr hh.symm)]
      exact hr
  · refine ⟨⟨m.next⟩,
      ((((m.alloc junk).2).write o junk).write m.next w).zset o,
      [Event.alloc m.next, Event.write false m.next w,
       Event.write false o junk, Event.zfill true o, Event.free o],
      ?_, hfo, ?_, ?_, ?_, zeroBytes_all_zero junk, ?_⟩
    · simp [ZeroDropCow.into_boxed, ZeroDrop.new_box, ho, Mem.alloc]
    · simp [List.countP_cons, Event.isAlloc]
    · rw [Mem.read_zset_ne _ o m.next (fun hh => hfo hh.symm)]
      refine Mem.read_write_self _ m.next w junk ?_
      rw [Mem.read_write_ne _ o m.next junk (fun hh => hfo hh.symm)]
      exact Mem.read_alloc_self m junk
    · refine Mem.read_zset_self _ o junk ?_
      rw [Mem.read_write_ne _ m.next o w hfo]
      refine Mem.read_write_self _ o junk w ?_
      rw [Mem.read_alloc_ne m o junk (fun hh => hfo hh.symm)]
      exact ho
    · simp

/-- Witness for the amended C4 at a concrete two-allocation heap. -/
theorem into_boxed_amended_witness :
    (Mem.wfb ⟨2, [(0, [3, 3]), (1, [7, 7])]⟩ = true)
    ∧ (Mem.read ⟨2, [(0, [3, 3]), (1, [7, 7])]⟩ 0 = some [3, 3])
    ∧ (Mem.read ⟨2, [(0, [3, 3]), (1, [7, 7])]⟩ 1 = some [7, 7])
    ∧ ((∃ zd m2 tr,
        ZeroDropCow.into_boxed [9, 9] (.Borrowed 0)
            ⟨2, [(0, [3, 3]), (1, [7, 7])]⟩ = some (zd, m2, tr)
        ∧ zd.alloc ≠ 0
        ∧ m2.read zd.alloc = some [3, 3]
        ∧ m2.read 0 = some [3, 3])
      ∧ (∃ zd m3 tr,
        ZeroDropCow.into_boxed [9, 9] (.Boxed 1)
            ⟨2, [(0, [3, 3]), (1, [7, 7])]⟩ = some (zd, m3, tr)
        ∧ zd.alloc ≠ 1
        ∧ tr.countP (fun e => Event.isAlloc e) = 1
        ∧ m3.read zd.alloc = some [7, 7]
        ∧ m3.read 1 = some (zeroBytes [9, 9])
        ∧ (∀ x ∈ zeroBytes [9, 9], x = 0)
        ∧ Event.free 1 ∈ tr)) :=
  ⟨by decide, by decide, by decide,
    into_boxed_amended ⟨2, [(0, [3, 3]), (1, [7, 7])]⟩ [9, 9] 0 1 [3, 3]
      [7, 7] (by decide) (by decide) (by decide)⟩

/-- Claim C5 is refuted on its write-access half: cow.rs implements only
the read-access traits `Deref`, `AsRef` and `Borrow` for `ZeroDropCow`,
so its delegation surface contains no write-access impl at all — write
access is not offered in the `Boxed` (owned) state either. -/
theorem cow_write_access_absent :
    cowAccessImpls.filter (fun i => i.access == Access.write) = [] := by
  decide

/-- Claim C5 as amended: read-only delegated access (`Deref`, `AsRef`,
`Borrow`) works identically in the `Borrowed` and `Boxed` states, and
write access is unavailable on `ZeroDropCow` in both states as a
compile-time absence of any mutable-access impl (so no runtime panic
path); mutable access to owned data exists only after converting into a
`ZeroDrop` via `into_boxed`, whose type does implement the write-access
traits. -/
theorem cow_read_uniform_write_absent (m : Mem) (r o : AllocId) (v : Bytes)
    (hr : m.read r = some v) (ho : m.read o = some v) :
    ((ZeroDropCow.deref (.Borrowed r) m).1 = some v
      ∧ (ZeroDropCow.deref (.Boxed o) m).1 = some v
      ∧ (ZeroDropCow.as_ref (.Borrowed r) m).1 = some v
      ∧ (ZeroDropCow.as_ref (.Boxed o) m).1 = some v
      ∧ (ZeroDropCow.borrow (.Borrowed r) m).1 = some v
      ∧ (ZeroDropCow.borrow (.Boxed o) m).1 = some v)
    ∧ cowAccessImpls.filter (fun i => i.access == Access.write) = []
    ∧ zeroDropAccessImpls.filter (fun i => i.access == Access.write)
        ≠ [] := by
  refine ⟨⟨?_, ?_, ?_, ?_, ?_, ?_⟩, by decide, by decide⟩ <;>
    simp [ZeroDropCow.deref, ZeroDropCow.as_ref, ZeroDropCow.borrow, hr, ho]

/-- Witness for the amended C5 at a concrete heap where the borrowed and
the boxed allocation hold the same bytes. -/
theorem cow_read_uniform_write_absent_witness :
    (Mem.read ⟨2, [(0, [5, 5]), (1, [5, 5])]⟩ 0 = some [5, 5])
    ∧ (Mem.read ⟨2, [(0, [5, 5]), (1, [5, 5])]⟩ 1 = some [5, 5])
    ∧ (((ZeroDropCow.deref (.Borrowed 0)
          ⟨2, [(0, [5, 5]), (1, [5, 5])]⟩).1 = some [5, 5]
      ∧ (ZeroDropCow.deref (.Boxed 1)
          ⟨2, [(0, [5, 5]), (1, [5, 5])]⟩).1 = some [5, 5]
      ∧ (ZeroDropCow.as_ref (.Borrowed 0)
          ⟨2, [(0, [5, 5]), (1, [5, 5])]⟩).1 = some [5, 5]
      ∧ (ZeroDropCow.as_ref (.Boxed 1)
          ⟨2, [(0, [5, 5]), (1, [5, 5])]⟩).1 = some [5, 5]
      ∧ (ZeroDropCow.borrow (.Borrowed 0)
          ⟨2, [(0, [5, 5]), (1, [5, 5])]⟩).1 = some [5, 5]
      ∧ (ZeroDropCow.borrow (.Boxed 1)
          ⟨2, [(0, [5, 5]), (1, [5, 5])]⟩).1 = some [5, 5])
    ∧ cowAccessImpls.filter (fun i => i.access == Access.write) = []
    ∧ zeroDropAccessImpls.filter (fun i => i.access == Access.write)
        ≠ []) :=
  ⟨by decide, by decide,
    cow_read_uniform_write_absent ⟨2, [(0, [5, 5]), (1, [5, 5])]⟩ 0 1
      [5, 5] (by decide) (by decide)⟩

/-- Claim C7: cloning an owning wrapper produces an independent fresh
allocation with equal contents — destroying the clone zeroes only the
clone's allocation and leaves the original intact, and vice versa; a
`Borrowed` `ZeroDropCow` clone merely reborrows the same reference with
no allocation and no event. -/
theorem clone_independence (m : Mem) (a o : AllocId) (v w junk : Bytes)
    (hm : m.wfb = true) (ha : m.read a = some v) (ho : m.read o = some w) :
    (∃ zd m1 tr, ZeroDrop.clone ⟨a⟩ m = some (zd, m1, tr)
      ∧ zd.alloc ≠ a
      ∧ m1.read zd.alloc = some v
      ∧ m1.read a = some v
      ∧ ((ZeroDrop.endOfLife zd m1).1).read a = some v
      ∧ ((ZeroDrop.endOfLife zd m1).1).read zd.alloc = some (zeroBytes v)
      ∧ ((ZeroDrop.endOfLife ⟨a⟩ m1).1).read zd.alloc = some v
      ∧ ((ZeroDrop.endOfLife ⟨a⟩ m1).1).read a = some (zeroBytes v))
    ∧ (ZeroDropCow.clone junk (.Borrowed a) m = some (.Borrowed a, m, []))
    ∧ (∃ b m1 tr,
      ZeroDropCow.clone junk (.Boxed o) m = some (.Boxed b, m1, tr)
      ∧ b ≠ o
      ∧ m1.read b = some w
      ∧ m1.read o = some w
      ∧ ((ZeroDropCow.endOfLife (.Boxed b) m1).1).read o = some w
      ∧ ((ZeroDropCow.endOfLife (.Boxed o) m1).1).read b = some w) := by
  have hna : m.next ≠ a := Mem.alloc_fresh_ne m a v v hm ha
  have hno : m.next ≠ o := Mem.alloc_fresh_ne m o w junk hm ho
  refine ⟨?_, rfl, ?_⟩
  · have hm1self : ((m.alloc v).2).read m.next = some v :=
      Mem.read_alloc_self m v
    have hm1a : ((m.alloc v).2).read a = some v := by
      rw [Mem.read_alloc_ne m a v (fun hh => hna hh.symm)]
      exact ha
    refine ⟨⟨m.next⟩, (m.alloc v).2,
      [Event.alloc m.next, Event.write false m.next v],
      ?_, hna, hm1self, hm1a, ?_, ?_, ?_, ?_⟩
    · simp [ZeroDrop.clone, ha, Mem.alloc]
    · simp only [ZeroDrop.endOfLife, ZeroDrop.drop]
      rw [Mem.read_zset_ne _ m.next a hna]
      exact hm1a
    · simp only [ZeroDrop.endOfLife, ZeroDrop.drop]
      exact Mem.read_zset_self _ m.next v hm1self
    · simp only [ZeroDrop.endOfLife, ZeroDrop.drop]
      rw [Mem.read_zset_ne _ a m.next (fun hh => hna hh.symm)]
      exact hm1self
    · simp only [ZeroDrop.endOfLife, ZeroDrop.drop]
      exact Mem.read_zset_self _ a v hm1a
  · have hm1b : (((m.alloc junk).2).write m.next w).read m.next = some w :=
      Mem.read_write_self _ m.next w junk (Mem.read_alloc_self m junk)
    have hm1o : (((m.alloc junk).2).write m.next w).read o = some w := by
      rw [Mem.read_write_ne _ m.next o w hno,
        Mem.read_alloc_ne m o junk (fun hh => hno hh.symm)]
      exact ho
    refine ⟨m.next, ((m.alloc junk).2).write m.next w,
      [Event.alloc m.next, Event.write false m.next w],
      ?_, hno, hm1b, hm1o, ?_, ?_⟩
    · simp [ZeroDropCow.clone, ZeroDropCow.new_copy, ho, Mem.alloc]
    · simp only [ZeroDropCow.endOfLife, ZeroDropCow.drop]
      rw [Mem.read_zset_ne _ m.next o hno]
      exact hm1o
    · simp only [ZeroDropCow.endOfLife, ZeroDropCow.drop]
      rw [Mem.read_zset_ne _ o m.next (fun hh => hno hh.symm)]
      exact hm1b

/-- Witness for C7 at a concrete two-allocation heap. -/
theorem clone_independence_witness :
    (Mem.wfb ⟨2, [(0, [3, 3]), (1, [7, 7])]⟩ = true)
    ∧ (Mem.read ⟨2, [(0, [3, 3]), (1, [7, 7])]⟩ 0 = some [3, 3])
    ∧ (Mem.read ⟨2, [(0, [3, 3]), (1, [7, 7])]⟩ 1 = some [7, 7])
    ∧ ((∃ zd m1 tr,
        ZeroDrop.clone ⟨0⟩ ⟨2, [(0, [3, 3]), (1, [7, 7])]⟩
            = some (zd, m1, tr)
        ∧ zd.alloc ≠ 0
        ∧ m1.read zd.alloc = some [3, 3]
        ∧ m1.read 0 = some [3, 3]
        ∧ ((ZeroDrop.endOfLife zd m1).1).read 0 = some [3, 3]
        ∧ ((ZeroDrop.endOfLife zd m1).1).read zd.alloc
            = some (zeroBytes [3, 3])
        ∧ ((ZeroDrop.endOfLife ⟨0⟩ m1).1).read zd.alloc = some [3, 3]
        ∧ ((ZeroDrop.endOfLife ⟨0⟩ m1).1).read 0 = some (zeroBytes [3, 3]))
      ∧ (ZeroDropCow.clone [9, 9] (.Borrowed 0)
          ⟨2, [(0, [3, 3]), (1, [7, 7])]⟩
          = some (.Borrowed 0, ⟨2, [(0, [3, 3]), (1, [7, 7])]⟩, []))
      ∧ (∃ b m1 tr,
        ZeroDropCow.clone [9, 9] (.Boxed 1)
            ⟨2, [(0, [3, 3]), (1, [7, 7])]⟩ = some (.Boxed b, m1, tr)
        ∧ b ≠ 1
        ∧ m1.read b = some [7, 7]
        ∧ m1.read 1 = some [7, 7]
        ∧ ((ZeroDropCow.endOfLife (.Boxed b) m1).1).read 1 = some [7, 7]
        ∧ ((ZeroDropCow.endOfLife (.Boxed 1) m1).1).read b
            = some [7, 7])) :=
  ⟨by decide, by decide, by decide,
    clone_independence ⟨2, [(0, [3, 3]), (1, [7, 7])]⟩ 0 1 [3, 3] [7, 7]
      [9, 9] (by decide) (by decide) (by decide)⟩

/-- Claim C8: `new_copy` (on `ZeroDrop` and on `ZeroDropCow`) allocates a
fresh block and copies the referent byte for byte — the wrapper then holds
the same bytes, the source allocation is unchanged, and no stack copy of
the secret is materialized (whereas `new_insecure`, which takes the value
by value, does materialize one). -/
theorem new_copy_no_stack_copy (m : Mem) (junk : Bytes) (src : AllocId)
    (v : Bytes) (hm : m.wfb = true) (h : m.read src = some v) :
    (∃ zd m1 tr, ZeroDrop.new_copy junk src m = some (zd, m1, tr)
      ∧ zd.alloc ≠ src
      ∧ m1.read zd.alloc = some v
      ∧ m1.read src = some v
      ∧ tr.countP (fun e => Event.isStackCopy e) = 0)
    ∧ (∃ b m1 tr, ZeroDropCow.new_copy junk src m = some (.Boxed b, m1, tr)
      ∧ b ≠ src
      ∧ m1.read b = some v
      ∧ m1.read src = some v
      ∧ tr.countP (fun e => Event.isStackCopy e) = 0)
    ∧ ((ZeroDrop.new_insecure v m).2.2).countP
        (fun e => Event.isStackCopy e) = 1 := by
  have hns : m.next ≠ src := Mem.alloc_fresh_ne m src v junk hm h
  have hself : (((m.alloc junk).2).write m.next v).read m.next = some v :=
    Mem.read_write_self _ m.next v junk (Mem.read_alloc_self m junk)
  have hsrc : (((m.alloc junk).2).write m.next v).read src = some v := by
    rw [Mem.read_write_ne _ m.next src v hns,
      Mem.read_alloc_ne m src junk (fun hh => hns hh.symm)]
    exact h
  refine ⟨⟨⟨m.next⟩, ((m.alloc junk).2).write m.next v,
      [Event.alloc m.next, Event.write false m.next v],
      ?_, hns, hself, hsrc, ?_⟩,
    ⟨m.next, ((m.alloc junk).2).write m.next v,
      [Event.alloc m.next, Event.write false m.next v],
      ?_, hns, hself, hsrc, ?_⟩, ?_⟩
  · simp [ZeroDrop.new_copy, h, Mem.alloc]
  · simp [List.countP_cons, Event.isStackCopy]
  · simp [ZeroDropCow.new_copy, h, Mem.alloc]
  · simp [List.countP_cons, Event.isStackCopy]
  · simp [ZeroDrop.new_insecure, List.countP_cons, Event.isStackCopy]

/-- Witness for C8 at a concrete one-allocation heap. -/
theorem new_copy_no_stack_copy_witness :
    (Mem.wfb ⟨1, [(0, [3, 3])]⟩ = true)
    ∧ (Mem.read ⟨1, [(0, [3, 3])]⟩ 0 = some [3, 3])
    ∧ ((∃ zd m1 tr,
        ZeroDrop.new_copy [9, 9] 0 ⟨1, [(0, [3, 3])]⟩ = some (zd, m1, tr)
        ∧ zd.alloc ≠ 0
        ∧ m1.read zd.alloc = some [3, 3]
        ∧ m1.read 0 = some [3, 3]
        ∧ tr.countP (fun e => Event.isStackCopy e) = 0)
      ∧ (∃ b m1 tr,
        ZeroDropCow.new_copy [9, 9] 0 ⟨1, [(0, [3, 3])]⟩
            = some (.Boxed b, m1, tr)
        ∧ b ≠ 0
        ∧ m1.read b = some [3, 3]
        ∧ m1.read 0 = some [3, 3]
        ∧ tr.countP (fun e => Event.isStackCopy e) = 0)
      ∧ ((ZeroDrop.new_insecure [3, 3] ⟨1, [(0, [3, 3])]⟩).2.2).countP
          (fun e => Event.isStackCopy e) = 1) :=
  ⟨by decide, by decide,
    new_copy_no_stack_copy ⟨1, [(0, [3, 3])]⟩ [9, 9] 0 [3, 3] (by decide)
      (by decide)⟩

theorem runRead_preserves (op : ReadOp) (zd : ZeroDrop) (m : Mem) :
    (ZeroDrop.runRead op zd m).2.1 = m := by
  cases op <;> rfl

/-- Claim C9: every read access (`Deref`, `AsRef`, `Borrow`) on a live
`ZeroDrop` over `v` returns `v` and leaves the heap unchanged — any
sequence of such reads leaves the heap exactly as it was and each returns
the original value with no store event — and the zeroing happens exactly
at end of life. -/
theorem reads_show_original_until_drop (ops : List ReadOp) (m : Mem)
    (a : AllocId) (v : Bytes) (h : m.read a = some v) :
    ZeroDrop.runReads ops ⟨a⟩ m = m
    ∧ (∀ op, (ZeroDrop.runRead op ⟨a⟩ m).1 = some v)
    ∧ (∀ op, (ZeroDrop.runRead op ⟨a⟩ m).2.2 = [])
    ∧ ((ZeroDrop.endOfLife ⟨a⟩ m).1).read a = some (zeroBytes v) := by
  refine ⟨?_, ?_, ?_, ?_⟩
  · induction ops with
    | nil => rfl
    | cons op rest ih =>
      show ZeroDrop.runReads rest ⟨a⟩ ((ZeroDrop.runRead op ⟨a⟩ m).2.1) = m
      rw [runRead_preserves]
      exact ih
  · intro op
    cases op <;>
      simp [ZeroDrop.runRead, ZeroDrop.deref, ZeroDrop.as_ref,
        ZeroDrop.borrow, h]
  · intro op
    cases op <;> rfl
  · simp only [ZeroDrop.endOfLife, ZeroDrop.drop]
    exact Mem.read_zset_self m a v h

/-- Witness for C9 with a concrete sequence of all three reads. -/
theorem reads_show_original_until_drop_witness :
    (Mem.read ⟨1, [(0, [3, 3])]⟩ 0 = some [3, 3])
    ∧ (ZeroDrop.runReads [.derefOp, .asRefOp, .borrowOp] ⟨0⟩
          ⟨1, [(0, [3, 3])]⟩ = ⟨1, [(0, [3, 3])]⟩
      ∧ (∀ op, (ZeroDrop.runRead op ⟨0⟩ ⟨1, [(0, [3, 3])]⟩).1
          = some [3, 3])
      ∧ (∀ op, (ZeroDrop.runRead op ⟨0⟩ ⟨1, [(0, [3, 3])]⟩).2.2 = [])
      ∧ ((ZeroDrop.endOfLife ⟨0⟩ ⟨1, [(0, [3, 3])]⟩).1).read 0
          = some (zeroBytes [3, 3])) :=
  ⟨by decide,
    reads_show_original_until_drop [.derefOp, .asRefOp, .borrowOp]
      ⟨1, [(0, [3, 3])]⟩ 0 [3, 3] (by decide)⟩

/-- Claim C10: `new_zeroed` yields contents that are already all-zero;
`zero_out` on a live `ZeroDrop` or `ZeroDropDrop` overwrites every byte
with zero while the wrapper stays readable; `ZeroDrop::default` and
`ZeroDropDrop::new_default` instead fill the allocation with the type's
default byte image, which need not be the all-zero pattern. -/
theorem zero_out_and_default_values (m : Mem) (junk dflt : Bytes)
    (a : AllocId) (v : Bytes) (h : m.read a = some v) :
    ((ZeroDrop.new_zeroed junk m).2.1.read
        (ZeroDrop.new_zeroed junk m).1.alloc = some (zeroBytes junk)
      ∧ ∀ x ∈ zeroBytes junk, x = 0)
    ∧ ((ZeroDrop.zero_out ⟨a⟩ m).1.read a = some (zeroBytes v)
      ∧ (ZeroDrop.deref ⟨a⟩ (ZeroDrop.zero_out ⟨a⟩ m).1).1
          = some (zeroBytes v)
      ∧ (ZeroDropDrop.zero_out ⟨a⟩ m).1.read a = some (zeroBytes v))
    ∧ ((ZeroDrop.default dflt m).2.1.read
          (ZeroDrop.default dflt m).1.alloc = some dflt
      ∧ (ZeroDropDrop.new_default dflt m).2.1.read
          (ZeroDropDrop.new_default dflt m).1.alloc = some dflt)
    ∧ ((ZeroDrop.default [5] m).2.1.read
          (ZeroDrop.default [5] m).1.alloc = some [5]
      ∧ [5] ≠ zeroBytes [5]) := by
  refine ⟨⟨?_, zeroBytes_all_zero junk⟩, ⟨?_, ?_, ?_⟩, ⟨?_, ?_⟩,
    ⟨?_, by decide⟩⟩
  · exact Mem.read_zset_self _ m.next junk (Mem.read_alloc_self m junk)
  · exact Mem.read_zset_self m a v h
  · exact Mem.read_zset_self m a v h
  · exact Mem.read_zset_self m a v h
  · exact Mem.read_alloc_self m dflt
  · exact Mem.read_alloc_self m dflt
  · exact Mem.read_alloc_self m [5]

/-- Witness for C10 at a concrete heap, with a nonzero default `[5]`. -/
theorem zero_out_and_default_values_witness :
    (Mem.read ⟨1, [(0, [3, 3])]⟩ 0 = some [3, 3])
    ∧ (((ZeroDrop.new_zeroed [9, 9] ⟨1, [(0, [3, 3])]⟩).2.1.read
          (ZeroDrop.new_zeroed [9, 9] ⟨1, [(0, [3, 3])]⟩).1.alloc
          = some (zeroBytes [9, 9])
        ∧ ∀ x ∈ zeroBytes [9, 9], x = 0)
      ∧ ((ZeroDrop.zero_out ⟨0⟩ ⟨1, [(0, [3, 3])]⟩).1.read 0
            = some (zeroBytes [3, 3])
        ∧ (ZeroDrop.deref ⟨0⟩
              (ZeroDrop.zero_out ⟨0⟩ ⟨1, [(0, [3, 3])]⟩).1).1
            = some (zeroBytes [3, 3])
        ∧ (ZeroDropDrop.zero_out ⟨0⟩ ⟨1, [(0, [3, 3])]⟩).1.read 0
            = some (zeroBytes [3, 3]))
      ∧ ((ZeroDrop.default [5] ⟨1, [(0, [3, 3])]⟩).2.1.read
            (ZeroDrop.default [5] ⟨1, [(0, [3, 3])]⟩).1.alloc = some [5]
        ∧ (ZeroDropDrop.new_default [5] ⟨1, [(0, [3, 3])]⟩).2.1.read
            (ZeroDropDrop.new_default [5] ⟨1, [(0, [3, 3])]⟩).1.alloc
            = some [5])
      ∧ ((ZeroDrop.default [5] ⟨1, [(0, [3, 3])]⟩).2.1.read
            (ZeroDrop.default [5] ⟨1, [(0, [3, 3])]⟩).1.alloc = some [5]
        ∧ [5] ≠ zeroBytes [5])) :=
  ⟨by decide,
    zero_out_and_default_values ⟨1, [(0, [3, 3])]⟩ [9, 9] [5] 0 [3, 3]
      (by decide)⟩

end Zerodrop
